import Mathlib

/-!
Shallow embedding of `src/frontend/src/services/api.js` (the API client
wrapper of the supply-chain dashboard) and proofs about its defensive
JSON-normalization behaviour.

JavaScript values are modelled by the inductive `JSVal`; JS numbers by
`JSNum`, with `nan` and signed infinities as explicit values (there is no
float rounding in the fragment of arithmetic the client uses: the only
numeric operations are `parseFloat` and literals).  Objects are association
lists read through `lookupField`, which takes the first binding; object
literals with a trailing spread `{d1: v1, ..., ...r}` are therefore embedded
as `spreadFields r ++ defaults`, which gives the spread's keys priority
exactly as in JS.  `JSON.parse` and `parseFloat` are modelled by executable
parsers below.
-/

namespace Supply

/-- A JavaScript number: NaN, ±Infinity, or a finite value (kept exact as a
rational; the client performs no arithmetic that could make the float
approximation observable). -/
inductive JSNum where
  | nan
  | inf (neg : Bool)
  | fin (q : ℚ)
deriving DecidableEq

/-- A JavaScript value as the client observes it: `undefined`, `null`,
booleans, numbers, strings, arrays and plain objects (association lists of
string keys). -/
inductive JSVal where
  | undefined
  | null
  | bool (b : Bool)
  | num (n : JSNum)
  | str (s : String)
  | arr (elems : List JSVal)
  | obj (fields : List (String × JSVal))

/-- JS truthiness: `undefined`, `null`, `false`, `NaN`, `0`, and `""` are
falsy; every other value (all objects and arrays included) is truthy. -/
def truthy : JSVal → Bool
  | .undefined => false
  | .null => false
  | .bool b => b
  | .num .nan => false
  | .num (.inf _) => true
  | .num (.fin q) => q ≠ 0
  | .str s => s ≠ ""
  | .arr _ => true
  | .obj _ => true

/-- First binding of `key` in an association list, `undefined` when absent. -/
def lookupField : List (String × JSVal) → String → JSVal
  | [], _ => .undefined
  | (k, v) :: rest, key => if k = key then v else lookupField rest key

/-- Property read `v.key` for a receiver known to be non-nullish:
association-list lookup on objects, `undefined` on the other non-nullish
values (booleans, numbers, strings and arrays carry none of the named
properties the client reads).  On `null`/`undefined` JS instead throws a
TypeError; a read whose receiver may be nullish is embedded as `propRead`
below, which models that error path, and the definitions that apply
`getField` directly do so either behind such a successful `propRead`, a
truthiness test, or a theorem hypothesis / concrete input fixing the
receiver. -/
def getField : JSVal → String → JSVal
  | .obj fs, key => lookupField fs key
  | _, _ => .undefined

def isNullish : JSVal → Bool
  | .undefined => true
  | .null => true
  | _ => false

/-- Property read `v.key` as JS performs it: a TypeError (`none`) on a
nullish receiver, the `getField` lookup otherwise. -/
def propRead : JSVal → String → Option JSVal
  | .undefined, _ => none
  | .null, _ => none
  | v, key => some (getField v key)

/-- Property assignment `o.key = v` for objects: the key's binding is
replaced (or created).  The client only ever assigns to values it has
checked or built as objects; on a non-object, where strict-mode JS would
throw a `TypeError`, the value is returned unchanged and every theorem
below restricts itself to object inputs instead. -/
def setField : JSVal → String → JSVal → JSVal
  | .obj fs, key, v => .obj ((key, v) :: fs.filter (fun kv => kv.1 ≠ key))
  | other, _, _ => other

/-- The own enumerable properties contributed by `...v` in an object
literal: an object's fields, an array's or string's index properties, and
nothing for primitives (spreading `null`/`undefined` is legal and empty). -/
def spreadFields : JSVal → List (String × JSVal)
  | .obj fs => fs
  | .arr xs => xs.enum.map (fun p => (toString p.1, p.2))
  | .str s => s.toList.enum.map (fun p => (toString p.1, .str (String.singleton p.2)))
  | _ => []

/-- Nullish coalescing `v ?? d`. -/
def nullishDefault (v d : JSVal) : JSVal :=
  match v with
  | .undefined => d
  | .null => d
  | _ => v

/-- Logical-or defaulting `v || d`. -/
def orDefault (v d : JSVal) : JSVal :=
  if truthy v then v else d

def isArr : JSVal → Bool
  | .arr _ => true
  | _ => false

def isObj : JSVal → Bool
  | .obj _ => true
  | _ => false

def isNum : JSVal → Bool
  | .num _ => true
  | _ => false

/-- Whether an object value carries the key at all (a JSON-parsed object
never stores `undefined`, so this coincides with `getField ≠ undefined`
on backend data). -/
def hasField (v : JSVal) (key : String) : Bool :=
  match v with
  | .obj fs => fs.any (fun kv => kv.1 = key)
  | _ => false

/-- Decimal digits of `rem / d` (the fractional part), `fuel` digits at
most.  JS prints the shortest decimal identifying the double; for the exact
rationals of this model the expansion is emitted as-is, which agrees with JS
on every value the client ever stringifies (small decimal literals). -/
def fracDigits : Nat → Nat → Nat → String
  | 0, _, _ => ""
  | _ + 1, 0, _ => ""
  | fuel + 1, rem, d =>
    let rem10 := rem * 10
    (Nat.repr (rem10 / d)) ++ fracDigits fuel (rem10 % d) d

/-- `String(n)` for a JS number. -/
def numToString : JSNum → String
  | .nan => "NaN"
  | .inf false => "Infinity"
  | .inf true => "-Infinity"
  | .fin q =>
    let sign := if q < 0 then "-" else ""
    let n := q.num.natAbs
    let d := q.den
    if d = 1 then sign ++ Nat.repr n
    else sign ++ Nat.repr (n / d) ++ "." ++ fracDigits 30 (n % d) d

mutual
/-- `String(v)`: JS string coercion.  Arrays stringify as their elements
joined by commas with `null`/`undefined` elements blank; plain objects as
`[object Object]`. -/
def jsToString : JSVal → String
  | .undefined => "undefined"
  | .null => "null"
  | .bool b => if b then "true" else "false"
  | .num n => numToString n
  | .str s => s
  | .arr xs => String.intercalate "," (jsToStringElems xs)
  | .obj _ => "[object Object]"

/-- Element stringification used by `Array.prototype.toString`/`join`:
`null` and `undefined` become the empty string. -/
def jsToStringElems : List JSVal → List String
  | [] => []
  | .undefined :: rest => "" :: jsToStringElems rest
  | .null :: rest => "" :: jsToStringElems rest
  | x :: rest => jsToString x :: jsToStringElems rest
end

/-- `Array.prototype.join(sep)`. -/
def arrJoin (sep : String) (xs : List JSVal) : String :=
  String.intercalate sep (jsToStringElems xs)

/-! ### `parseFloat` -/

/-- Longest run of decimal digits at the head of the character list,
returned with the rest. -/
def takeDigits (cs : List Char) : List Char × List Char :=
  (cs.takeWhile Char.isDigit, cs.dropWhile Char.isDigit)

def digitsToNat (ds : List Char) : Nat :=
  ds.foldl (fun acc c => acc * 10 + (c.toNat - '0'.toNat)) 0

/-- The rational `±mantissa · 10^exp10`.  The integral case is built without
rational arithmetic so that concrete values reduce inside the kernel. -/
def decValue (neg : Bool) (mantissa : Nat) (exp10 : Int) : ℚ :=
  let a : ℚ :=
    if 0 ≤ exp10 then ((mantissa * 10 ^ exp10.toNat : Nat) : ℚ)
    else (mantissa : ℚ) / ((10 ^ (-exp10).toNat : Nat) : ℚ)
  if neg then -a else a

/-- Optional exponent `e±ddd`; when the exponent is absent or malformed JS
keeps only the shorter valid prefix, whose value is the same as exponent
`0`, which is what an empty digit run yields here. -/
def parseExponent (cs : List Char) : Int :=
  match cs with
  | e :: rest =>
    if e = 'e' ∨ e = 'E' then
      match rest with
      | '+' :: r2 => (digitsToNat (takeDigits r2).1 : Int)
      | '-' :: r2 => -(digitsToNat (takeDigits r2).1 : Int)
      | _ => (digitsToNat (takeDigits rest).1 : Int)
    else 0
  | [] => 0

/-- `parseFloat` on a string: skip whitespace, optional sign, then the
longest `StrDecimalLiteral` prefix (`Infinity` included); `NaN` when no
digits can be read. -/
def parseFloatChars (cs : List Char) : JSNum :=
  let cs1 := cs.dropWhile (fun c => c = ' ' ∨ c = '\t' ∨ c = '\n' ∨ c = '\r')
  let (neg, cs2) :=
    match cs1 with
    | '-' :: r => (true, r)
    | '+' :: r => (false, r)
    | _ => (false, cs1)
  if "Infinity".toList.isPrefixOf cs2 then .inf neg
  else
    let (ip, r1) := takeDigits cs2
    let (fp, r2) :=
      match r1 with
      | '.' :: r => takeDigits r
      | _ => ([], r1)
    if ip = [] ∧ fp = [] then .nan
    else .fin (decValue neg (digitsToNat (ip ++ fp)) (parseExponent r2 - fp.length))

/-- `parseFloat(v)`: a number is (conceptually) round-tripped through its
string form unchanged; every other value is coerced with `String(v)` and
parsed. -/
def jsParseFloat : JSVal → JSNum
  | .num n => n
  | v => parseFloatChars (jsToString v).toList

/-! ### `JSON.parse`

An executable model of `JSON.parse`, total by structural recursion on a
fuel counter (seeded with the input length, which bounds the nesting
depth).  `jsonParse` returns `none` exactly where `JSON.parse` throws a
`SyntaxError`; duplicate object keys keep the last occurrence, as in JS. -/

def isJsonWs (c : Char) : Bool :=
  c = ' ' || c = '\n' || c = '\t' || c = '\r'

def skipWs (cs : List Char) : List Char :=
  cs.dropWhile isJsonWs

def hexVal (c : Char) : Option Nat :=
  let n := c.toNat
  if c.isDigit then some (n - 48)
  else if 'a' ≤ c ∧ c ≤ 'f' then some (n - 87)
  else if 'A' ≤ c ∧ c ≤ 'F' then some (n - 55)
  else none

/-- Decodes one escape character; `\u` is handled separately. -/
def unescape (e : Char) : Option Char :=
  if e = 'n' then some '\n'
  else if e = 't' then some '\t'
  else if e = 'r' then some '\r'
  else if e = '"' then some '"'
  else if e = '/' then some '/'
  else if e = '\\' then some '\\'
  else if e = 'b' then some (Char.ofNat 8)
  else if e = 'f' then some (Char.ofNat 12)
  else none

/-- Body of a JSON string after the opening quote: the decoded characters
and the input past the closing quote. -/
def parseJString : List Char → Option (String × List Char)
  | [] => none
  | '"' :: rest => some ("", rest)
  | '\\' :: 'u' :: h1 :: h2 :: h3 :: h4 :: rest =>
    match hexVal h1, hexVal h2, hexVal h3, hexVal h4 with
    | some a, some b, some c, some d =>
      (parseJString rest).map
        (fun p => (String.singleton (Char.ofNat (((a * 16 + b) * 16 + c) * 16 + d)) ++ p.1, p.2))
    | _, _, _, _ => none
  | '\\' :: e :: rest =>
    match unescape e with
    | some c => (parseJString rest).map (fun p => (String.singleton c ++ p.1, p.2))
    | none => none
  | c :: rest =>
    if c.toNat < 32 then none
    else (parseJString rest).map (fun p => (String.singleton c ++ p.1, p.2))

/-- A JSON number literal `-?int[.digits][e[±]digits]` (no leading zeros,
at least one digit after a decimal point or exponent marker), kept exact. -/
def parseJNumber (cs : List Char) : Option (ℚ × List Char) :=
  let neg : Bool := cs.headD ' ' = '-'
  let cs1 := if neg then cs.tail else cs
  let (ip, r1) := takeDigits cs1
  if ip = [] ∨ (ip.length > 1 ∧ ip.headD '0' = '0') then none
  else
    let frac : Option (List Char × List Char) :=
      match r1 with
      | '.' :: r =>
        let (fp, r') := takeDigits r
        if fp = [] then none else some (fp, r')
      | _ => some ([], r1)
    match frac with
    | none => none
    | some (fp, r2) =>
      let ex : Option (Int × List Char) :=
        match r2 with
        | c :: r =>
          if c = 'e' ∨ c = 'E' then
            match r with
            | '+' :: r' =>
              let (ds, r'') := takeDigits r'
              if ds = [] then none else some ((digitsToNat ds : Int), r'')
            | '-' :: r' =>
              let (ds, r'') := takeDigits r'
              if ds = [] then none else some (-(digitsToNat ds : Int), r'')
            | _ =>
              let (ds, r'') := takeDigits r
              if ds = [] then none else some ((digitsToNat ds : Int), r'')
          else some (0, r2)
        | [] => some (0, r2)
      match ex with
      | none => none
      | some (e, r3) =>
        some (decValue neg (digitsToNat (ip ++ fp)) (e - fp.length), r3)

mutual
/-- One JSON value at the head of the (whitespace-skipped) input. -/
def parseJVal : Nat → List Char → Option (JSVal × List Char)
  | 0, _ => none
  | _ + 1, [] => none
  | fuel + 1, c :: cs =>
    match c, cs with
    | 'n', 'u' :: 'l' :: 'l' :: r => some (.null, r)
    | 't', 'r' :: 'u' :: 'e' :: r => some (.bool true, r)
    | 'f', 'a' :: 'l' :: 's' :: 'e' :: r => some (.bool false, r)
    | '"', r => (parseJString r).map (fun p => (.str p.1, p.2))
    | '[', r =>
      match skipWs r with
      | ']' :: r' => some (.arr [], r')
      | r' => (parseJElems fuel r').map (fun p => (.arr p.1, p.2))
    | '{', r =>
      match skipWs r with
      | '}' :: r' => some (.obj [], r')
      | r' => (parseJMembers fuel r').map (fun p => (.obj p.1, p.2))
    | _, _ => (parseJNumber (c :: cs)).map (fun p => (.num (.fin p.1), p.2))

/-- Comma-separated array elements up to the closing bracket. -/
def parseJElems : Nat → List Char → Option (List JSVal × List Char)
  | 0, _ => none
  | fuel + 1, cs => do
    let (v, r1) ← parseJVal fuel (skipWs cs)
    match skipWs r1 with
    | ',' :: r2 => (parseJElems fuel r2).map (fun p => (v :: p.1, p.2))
    | ']' :: r2 => some ([v], r2)
    | _ => none

/-- Comma-separated `"key": value` members up to the closing brace.  A later
binding of the same key replaces the earlier one, as `JSON.parse` does. -/
def parseJMembers : Nat → List Char → Option (List (String × JSVal) × List Char)
  | 0, _ => none
  | fuel + 1, cs =>
    match skipWs cs with
    | '"' :: r0 => do
      let (k, r1) ← parseJString r0
      match skipWs r1 with
      | ':' :: r2 => do
        let (v, r3) ← parseJVal fuel (skipWs r2)
        match skipWs r3 with
        | ',' :: r4 =>
          (parseJMembers fuel r4).map
            (fun p => (if p.1.any (fun kv => kv.1 = k) then p.1 else (k, v) :: p.1, p.2))
        | '}' :: r4 => some ([(k, v)], r4)
        | _ => none
      | _ => none
    | _ => none
end

/-- `JSON.parse(text)`: `some` of the parsed value, `none` where JS throws. -/
def jsonParse (text : String) : Option JSVal :=
  match parseJVal (text.length + 1) (skipWs text.toList) with
  | some (v, rest) => if skipWs rest = [] then some v else none
  | none => none

/-! ### `APIService.request`

The fetch wrapper `request(endpoint, options)` (api.js lines 14–74).  A call
either rejects at the network level or yields a response, modelled by
`FetchOutcome`; the response carries its status, its `content-type` header
(`null` when absent) and its body text. -/

/-- Substring search: does `pat` occur in the character list? -/
def hasSubstr (pat : List Char) : List Char → Bool
  | [] => pat.isEmpty
  | c :: cs => pat.isPrefixOf (c :: cs) || hasSubstr pat cs

/-- `String.prototype.includes`. -/
def strIncludes (s pat : String) : Bool :=
  hasSubstr pat.toList s.toList

/-- `contentType && contentType.includes('application/json')`: the header is
a non-null, truthy string containing `application/json`. -/
def ctIsJson : Option String → Bool
  | some ct => truthy (.str ct) && strIncludes ct "application/json"
  | none => false

/-- An HTTP response as the wrapper observes it. -/
structure Resp where
  status : Nat
  contentType : Option String
  body : String

/-- The outcome of the underlying `fetch` call: rejection with an error
message, or a response. -/
inductive FetchOutcome where
  | reject (msg : String)
  | resp (r : Resp)

/-- `response.ok`: status in the 200–299 range. -/
def respOk (status : Nat) : Bool :=
  200 ≤ status && status ≤ 299

/-- The `data` computed by the body-parsing block (api.js lines 29–44):
JSON bodies are parsed (empty body → `{}`, parse failure → the
`Invalid response format` message object); non-JSON bodies are wrapped
as `{message: text}`. -/
def parseBody (contentType : Option String) (body : String) : JSVal :=
  if ctIsJson contentType then
    if body = "" then .obj []
    else
      match jsonParse body with
      | some v => v
      | none => .obj [("message", .str "Invalid response format")]
  else .obj [("message", .str body)]

/-- One 422 validation entry rendered as
`` `${err.loc?.join('.') || 'field'}: ${err.msg}` `` (api.js line 53).
`none` models the `TypeError` JS throws when the entry itself is nullish
(the `err.loc` read) or when `loc` is neither nullish nor an array (so
`loc.join` is not a function); `err.msg` is only read after the `loc` part
succeeded, as in the template literal. -/
def fmtEntry (e : JSVal) : Option String := do
  let loc ← propRead e "loc"
  let locStr ←
    match loc with
    | .undefined => some "field"
    | .null => some "field"
    | .arr xs =>
      let j := arrJoin "." xs
      some (if j = "" then "field" else j)
    | _ => none
  let msg ← propRead e "msg"
  some (locStr ++ ": " ++ jsToString msg)

/-- The error message of the `!response.ok` branch (api.js lines 47–55):
`data.detail || data.message || 'HTTP <status>: Request failed'`, replaced
for a 422 status with truthy array `detail` by the joined validation
entries.  `none` models a `TypeError` escaping the branch: the `data.detail`
read itself when the parsed body is nullish (a JSON body `null`), or a
malformed 422 entry inside `fmtEntry`.  (JS reads `data.message` only when
`detail` is falsy, but on a non-nullish `data` neither read can throw, so
binding both upfront is observationally the same.) -/
def computeErrorMsg (status : Nat) (data : JSVal) : Option String := do
  let detail ← propRead data "detail"
  let message ← propRead data "message"
  let base : JSVal :=
    orDefault detail
      (orDefault message (.str ("HTTP " ++ Nat.repr status ++ ": Request failed")))
  if status = 422 ∧ truthy detail = true then
    match detail with
    | .arr entries => (entries.mapM fmtEntry).map (String.intercalate ", ")
    | _ => some (jsToString base)
  else some (jsToString base)

/-- The outer `catch` of `request` (api.js lines 64–73): an error whose
message is exactly `Failed to fetch` is rethrown with the
cannot-connect message. -/
def fixupMsg (baseURL msg : String) : String :=
  if msg = "Failed to fetch" then
    "Cannot connect to backend at " ++ baseURL ++ ". Is the server running?"
  else msg

/-- What a call to `request` does: resolve with the parsed data, or throw an
Error carrying a message (and, for HTTP errors, the status and data the
wrapper attached).  `jsEngineError` is a propagated engine exception
(`TypeError`) whose message text is engine-defined; the outer catch passes
it through since no engine spells it `Failed to fetch`. -/
inductive ReqResult where
  | ok (data : JSVal)
  | apiError (message : String) (status : Option Nat) (data : Option JSVal)
  | jsEngineError

/-- `APIService.request` (api.js lines 14–74), given the fetch outcome. -/
def request (baseURL : String) : FetchOutcome → ReqResult
  | .reject msg => .apiError (fixupMsg baseURL msg) none none
  | .resp r =>
    let data := parseBody r.contentType r.body
    if respOk r.status then .ok data
    else
      match computeErrorMsg r.status data with
      | some m => .apiError (fixupMsg baseURL m) (some r.status) (some data)
      | none => .jsEngineError

/-! ### The API methods

Each method is `request` followed by a normalization of the resolved data
(an object literal ending in `...result`, embedded as
`spreadFields result ++ defaults`, which gives the response's own keys
priority under `lookupField`'s first-match rule), wrapped in a catch that
rethrows with a method-specific prefix. -/

/-- What an API method call resolves to: a value, an Error with the given
message, or a propagated engine exception (whose message is
engine-defined). -/
inductive ApiOutcome where
  | ok (v : JSVal)
  | err (message : String)
  | errEngine

/-- The normalization of `predictShipment` (api.js lines 144–155). -/
def predictShipmentNormalize (data result : JSVal) : JSVal :=
  .obj (spreadFields result ++ [
    ("delayed", nullishDefault (getField result "delayed") .null),
    ("status", orDefault (getField result "status") (.str "Unknown")),
    ("confidence", nullishDefault (getField result "confidence") (.num (.fin 0))),
    ("probability_delayed", nullishDefault (getField result "probability_delayed") (.num (.fin 0))),
    ("probability_ontime", nullishDefault (getField result "probability_ontime") (.num (.fin 0))),
    ("risk_level", orDefault (getField result "risk_level") (.str "Unknown")),
    ("feature_importance", orDefault (getField result "feature_importance") (.obj [])),
    ("input", orDefault (getField result "input") data),
    ("model", orDefault (getField result "model") (.str "LogisticRegression"))])

/-- `predictShipment(data)` (api.js lines 136–159). -/
def predictShipment (baseURL : String) (data : JSVal) (o : FetchOutcome) : ApiOutcome :=
  match request baseURL o with
  | .ok result => .ok (predictShipmentNormalize data result)
  | .apiError m _ _ => .err ("Shipment prediction failed: " ++ m)
  | .jsEngineError => .errEngine

/-- The normalization of `optimizeInventory` (api.js lines 169–177). -/
def optimizeInventoryNormalize (result : JSVal) : JSVal :=
  .obj (spreadFields result ++ [
    ("optimal_order_quantity", nullishDefault (getField result "optimal_order_quantity") (.num (.fin 0))),
    ("reorder_point", nullishDefault (getField result "reorder_point") (.num (.fin 0))),
    ("total_cost", nullishDefault (getField result "total_cost") (.num (.fin 0))),
    ("cost_breakdown", orDefault (getField result "cost_breakdown") (.obj [])),
    ("recommendations",
      if isArr (getField result "recommendations") then getField result "recommendations"
      else .arr []),
    ("safety_stock", nullishDefault (getField result "safety_stock") (.num (.fin 0)))])

/-- `optimizeInventory(data)` (api.js lines 162–181). -/
def optimizeInventory (baseURL : String) (o : FetchOutcome) : ApiOutcome :=
  match request baseURL o with
  | .ok result => .ok (optimizeInventoryNormalize result)
  | .apiError m _ _ => .err ("Inventory optimization failed: " ++ m)
  | .jsEngineError => .errEngine

/-- One entry of the `locations` fixup of `optimizeRouting` (api.js lines
190–195): a pair-as-array becomes `{lat: loc[0], lon: loc[1]}`, anything
else is kept. -/
def fixLocation (loc : JSVal) : JSVal :=
  match loc with
  | .arr xs => .obj [("lat", xs.getD 0 .undefined), ("lon", xs.getD 1 .undefined)]
  | _ => loc

/-- One entry of the `customers` fixup (api.js lines 200–205).  A nullish
entry makes the `customer.lat` read throw a TypeError (`none`); any other
entry is rebuilt as the four-field object. -/
def fixCustomer (idx : Nat) (c : JSVal) : Option JSVal := do
  let lat ← propRead c "lat"
  let lon ← propRead c "lon"
  let dem ← propRead c "demand"
  let nm ← propRead c "name"
  some (.obj [
    ("lat", .num (jsParseFloat lat)),
    ("lon", .num (jsParseFloat lon)),
    ("demand", .num (jsParseFloat (orDefault dem (.num (.fin 0))))),
    ("name", orDefault nm (.str ("Customer " ++ Nat.repr (idx + 1))))])

/-- The `locations` fixup block of `optimizeRouting` (api.js lines 189–196):
the `data.locations` read throws on a nullish `data`; when the field is a
(necessarily truthy) array, `fixedData.locations` is overwritten with its
reformatted entries (the entry fixup `fixLocation` performs no property
read, so it cannot throw). -/
def fixLocationsStep (data fd : JSVal) : Option JSVal := do
  let locs ← propRead data "locations"
  match locs with
  | .arr xs => some (setField fd "locations" (.arr (xs.map fixLocation)))
  | _ => some fd

/-- The `customers` fixup block (api.js lines 199–206): a nullish customer
entry makes `fixCustomer` throw, so no body is built. -/
def fixCustomersStep (data fd : JSVal) : Option JSVal := do
  let cust ← propRead data "customers"
  match cust with
  | .arr xs => do
    let fixed ← xs.enum.mapM (fun p => fixCustomer p.1 p.2)
    some (setField fd "customers" (.arr fixed))
  | _ => some fd

/-- The `depot` fixup block (api.js lines 209–215): applied whenever
`data.depot` is truthy — and a truthy depot is never nullish, so the three
reads on it cannot throw and are embedded with `getField`. -/
def fixDepotStep (data fd : JSVal) : Option JSVal := do
  let depot ← propRead data "depot"
  if truthy depot then
    some (setField fd "depot" (.obj [
      ("lat", .num (jsParseFloat (getField depot "lat"))),
      ("lon", .num (jsParseFloat (getField depot "lon"))),
      ("name", orDefault (getField depot "name") (.str "Depot"))]))
  else some fd

/-- The `fixedData` object `optimizeRouting` builds and serializes into the
request body (api.js lines 186–215): a copy of `data` put through the three
fixup blocks in order.  `none` models a TypeError thrown while building it
(nullish `data` or a nullish customer entry), in which case the source
throws before any HTTP request is made. -/
def optimizeRoutingFixedData (data : JSVal) : Option JSVal := do
  let fd0 := JSVal.obj (spreadFields data)
  let fd1 ← fixLocationsStep data fd0
  let fd2 ← fixCustomersStep data fd1
  fixDepotStep data fd2

/-- One location entry of the per-route validation (api.js lines 237–242).
A nullish entry makes the `loc.lat` read throw a TypeError (`none`). -/
def validatedLocation (loc : JSVal) : Option JSVal := do
  let lat ← propRead loc "lat"
  let lon ← propRead loc "lon"
  let nm ← propRead loc "name"
  let dem ← propRead loc "demand"
  some (.obj [
    ("lat", nullishDefault lat (.num (.fin 0))),
    ("lon", nullishDefault lon (.num (.fin 0))),
    ("name", orDefault nm (.str "Location")),
    ("demand", nullishDefault dem (.num (.fin 0)))])

/-- The per-route validation of `optimizeRouting` (api.js lines 233–252).
`none` models the TypeError thrown by the `route.locations` read on a
nullish route, or by a nullish location entry inside the inner map; the
remaining reads happen on a receiver that already survived the first
read. -/
def validateRoute (index : Nat) (route : JSVal) : Option JSVal := do
  let locsVal ← propRead route "locations"
  let locations ←
    match locsVal with
    | .arr xs => xs.mapM validatedLocation
    | _ => some []
  let vid ← propRead route "vehicle_id"
  let td ← propRead route "total_distance"
  let tdm ← propRead route "total_demand"
  some (.obj (spreadFields route ++ [
    ("vehicle_id", nullishDefault vid (.num (.fin index))),
    ("locations", .arr locations),
    ("total_distance", nullishDefault td (.num (.fin 0))),
    ("total_demand", nullishDefault tdm (.num (.fin 0)))]))

/-- The normalization of `optimizeRouting`'s resolved data (api.js lines
227–265): the `result.routes` read throws on a nullish response body (hence
`propRead`); otherwise `routes` is overwritten in place with `[]` when not
an array, each route is validated (`none` propagates a per-route
TypeError), statistics and algorithm defaults are filled in, and the final
literal ends in `...result`.  The remaining reads use `getField`: their
receivers are `result2` (non-nullish, it survived the first read), the
`?.`-guarded statistics, and `data`, which already survived the property
reads of `optimizeRoutingFixedData` before the request was sent. -/
def optimizeRoutingNormalize (data result : JSVal) : Option JSVal := do
  let routesVal ← propRead result "routes"
  let result2 :=
    if isArr routesVal then result
    else setField result "routes" (.arr [])
  let routesList : List JSVal :=
    match getField result2 "routes" with
    | .arr xs => xs
    | _ => []
  let validatedRoutes ← routesList.enum.mapM (fun p => validateRoute p.1 p.2)
  let stats := getField result2 "statistics"
  let optChain (k : String) : JSVal :=
    match stats with
    | .undefined => .undefined
    | .null => .undefined
    | v => getField v k
  let statsObj : JSVal := .obj (spreadFields stats ++ [
    ("num_vehicles", nullishDefault (optChain "num_vehicles") (.num (.fin validatedRoutes.length))),
    ("total_distance", nullishDefault (optChain "total_distance") (.num (.fin 0))),
    ("avg_distance_per_route", nullishDefault (optChain "avg_distance_per_route") (.num (.fin 0)))])
  some (.obj (spreadFields result2 ++ [
    ("routes", .arr validatedRoutes),
    ("statistics", statsObj),
    ("algorithm",
      orDefault (getField result2 "algorithm")
        (orDefault (getField data "algorithm") (.str "clarke_wright"))),
    ("optimization_time", orDefault (getField result2 "optimization_time") (.str "<1ms"))]))

/-- `optimizeRouting(data)` (api.js lines 183–273).  A TypeError while
building `fixedData` propagates to the catch before any request is made;
one thrown during the routes validation does so after.  Both stay
`errEngine`: their engine-defined messages decide between the
invalid-route-data text (when they contain `map`) and the
`Route optimization failed:` prefix, which the model leaves undetermined.
An HTTP error's message is a known string, so its catch branch is taken
exactly. -/
def optimizeRouting (baseURL : String) (data : JSVal) (o : FetchOutcome) : ApiOutcome :=
  match optimizeRoutingFixedData data with
  | none => .errEngine
  | some _ =>
    match request baseURL o with
    | .ok result =>
      match optimizeRoutingNormalize data result with
      | some v => .ok v
      | none => .errEngine
    | .apiError m _ _ =>
      if m ≠ "" ∧ strIncludes m "map" = true then
        .err "Server returned invalid route data. Please check backend response format."
      else .err ("Route optimization failed: " ++ m)
    | .jsEngineError => .errEngine

/-- The normalization of `batchEvaluateSuppliers` (api.js lines 289–295),
with `n` the length of the submitted suppliers array. -/
def batchNormalize (n : Nat) (result : JSVal) : JSVal :=
  .obj (spreadFields result ++ [
    ("results",
      if isArr (getField result "results") then getField result "results" else .arr []),
    ("total", nullishDefault (getField result "total") (.num (.fin n))),
    ("successful", nullishDefault (getField result "successful") (.num (.fin 0))),
    ("failed", nullishDefault (getField result "failed") (.num (.fin 0)))])

/-- `batchEvaluateSuppliers(suppliers)` (api.js lines 276–299).  The first
component records whether the HTTP request was issued: a non-array argument
throws before the `request` call. -/
def batchEvaluateSuppliers (baseURL : String) (suppliers : JSVal) (o : FetchOutcome) :
    Bool × ApiOutcome :=
  match suppliers with
  | .arr xs =>
    match request baseURL o with
    | .ok result => (true, .ok (batchNormalize xs.length result))
    | .apiError m _ _ => (true, .err ("Batch supplier evaluation failed: " ++ m))
    | .jsEngineError => (true, .errEngine)
  | _ => (false, .err "Batch supplier evaluation failed: Suppliers must be an array")

theorem lookupField_cons_ne (a : String) (v : JSVal) (tl : List (String × JSVal)) (k : String)
    (h : ¬a = k) : lookupField ((a, v) :: tl) k = lookupField tl k := by
  show (if a = k then v else lookupField tl k) = lookupField tl k
  rw [if_neg h]

theorem lookupField_append (fs ds : List (String × JSVal)) (k : String) :
    lookupField (fs ++ ds) k =
      if fs.any (fun kv => kv.1 = k) then lookupField fs k else lookupField ds k := by
  induction fs with
  | nil => simp [lookupField]
  | cons hd tl ih =>
    obtain ⟨a, v⟩ := hd
    by_cases h : a = k
    · simp [lookupField, h]
    · show (if a = k then v else lookupField (tl ++ ds) k) = _
      rw [if_neg h, ih, List.any_cons]
      have hd0 : (decide ((a, v).1 = k)) = false := by simp [h]
      rw [hd0, Bool.false_or, lookupField_cons_ne a v tl k h]

theorem lookupField_of_not_any (fs : List (String × JSVal)) (k : String)
    (h : fs.any (fun kv => kv.1 = k) = false) : lookupField fs k = .undefined := by
  induction fs with
  | nil => rfl
  | cons hd tl ih =>
    obtain ⟨a, v⟩ := hd
    simp only [List.any_cons, Bool.or_eq_false_iff, decide_eq_false_iff_not] at h
    rw [lookupField_cons_ne a v tl k h.1]
    exact ih h.2

theorem any_of_lookupField_ne (fs : List (String × JSVal)) (k : String)
    (h : lookupField fs k ≠ .undefined) : fs.any (fun kv => kv.1 = k) = true := by
  by_contra hfalse
  exact h (lookupField_of_not_any fs k (Bool.not_eq_true _ ▸ hfalse))

theorem lookupField_filter_ne (fs : List (String × JSVal)) (k k' : String) (h : k ≠ k') :
    lookupField (fs.filter (fun kv => kv.1 ≠ k)) k' = lookupField fs k' := by
  induction fs with
  | nil => rfl
  | cons hd tl ih =>
    obtain ⟨a, v⟩ := hd
    rw [List.filter_cons]
    by_cases ha : a = k
    · have hd0 : (decide ((a, v).1 ≠ k)) = false := by simp [ha]
      rw [hd0]
      simp only [Bool.false_eq_true, if_false]
      rw [ih, lookupField_cons_ne a v tl k' (by rw [ha]; exact h)]
    · have hd1 : (decide ((a, v).1 ≠ k)) = true := by simp [ha]
      rw [hd1]
      simp only [if_true]
      by_cases ha' : a = k'
      · subst ha'
        show (if a = a then v else _) = (if a = a then v else _)
        rw [if_pos rfl, if_pos rfl]
      · rw [lookupField_cons_ne a v _ k' ha', lookupField_cons_ne a v tl k' ha']
        exact ih

theorem getField_setField_self (v : JSVal) (h : isObj v = true) (k : String) (w : JSVal) :
    getField (setField v k w) k = w := by
  cases v <;> simp_all [isObj, setField, getField, lookupField]

theorem getField_setField_ne (v : JSVal) (k k' : String) (h : k ≠ k') (w : JSVal) :
    getField (setField v k w) k' = getField v k' := by
  cases v with
  | obj fs =>
    show lookupField ((k, w) :: fs.filter (fun kv => kv.1 ≠ k)) k' = lookupField fs k'
    rw [lookupField_cons_ne k w _ k' h]
    exact lookupField_filter_ne fs k k' h
  | undefined => rfl
  | null => rfl
  | bool b => rfl
  | num n => rfl
  | str s => rfl
  | arr xs => rfl

theorem isObj_setField (v : JSVal) (k : String) (w : JSVal) :
    isObj (setField v k w) = isObj v := by
  cases v <;> rfl

theorem propRead_not_nullish (v : JSVal) (k : String) (h : isNullish v = false) :
    propRead v k = some (getField v k) := by
  cases v <;> simp_all [isNullish, propRead]

theorem propRead_obj (fs : List (String × JSVal)) (k : String) :
    propRead (.obj fs) k = some (lookupField fs k) := rfl

theorem fixLocationsStep_frame (data fd : JSVal) (hobj : isObj data = true) :
    ∀ fd', fixLocationsStep data fd = some fd' →
      isObj fd' = isObj fd ∧ ∀ k, ¬k = "locations" → getField fd' k = getField fd k := by
  intro fd' h
  unfold fixLocationsStep at h
  rw [propRead_not_nullish data "locations" (by cases data <;> simp_all [isObj, isNullish])]
    at h
  simp only [bind, Option.some_bind] at h
  cases hc : getField data "locations" <;> rw [hc] at h <;> cases h <;>
    first
      | exact ⟨rfl, fun k hk => rfl⟩
      | exact ⟨isObj_setField fd "locations" _,
          fun k hk => getField_setField_ne fd "locations" k (fun he => hk he.symm) _⟩

theorem fixLocationsStep_isSome (data fd : JSVal) (hobj : isObj data = true) :
    ∃ fd', fixLocationsStep data fd = some fd' := by
  unfold fixLocationsStep
  rw [propRead_not_nullish data "locations" (by cases data <;> simp_all [isObj, isNullish])]
  simp only [bind, Option.some_bind]
  cases getField data "locations" <;> exact ⟨_, rfl⟩

theorem fixCustomersStep_frame (data fd : JSVal) (hobj : isObj data = true) :
    ∀ fd', fixCustomersStep data fd = some fd' →
      isObj fd' = isObj fd ∧ ∀ k, ¬k = "customers" → getField fd' k = getField fd k := by
  intro fd' h
  unfold fixCustomersStep at h
  rw [propRead_not_nullish data "customers" (by cases data <;> simp_all [isObj, isNullish])]
    at h
  simp only [bind, Option.some_bind] at h
  cases hc : getField data "customers" <;> rw [hc] at h
  case arr xs =>
    simp only [bind, Option.bind_eq_some] at h
    obtain ⟨fixed, hfix, hset⟩ := h
    cases hset
    exact ⟨isObj_setField fd "customers" _,
      fun k hk => getField_setField_ne fd "customers" k (fun he => hk he.symm) _⟩
  all_goals
    cases h
    exact ⟨rfl, fun k hk => rfl⟩

theorem fixCustomersStep_of_arr (data fd : JSVal) (hobj : isObj data = true)
    (cs : List JSVal) (hc : getField data "customers" = .arr cs) :
    fixCustomersStep data fd =
      (cs.enum.mapM (fun p => fixCustomer p.1 p.2)).bind
        (fun fixed => some (setField fd "customers" (.arr fixed))) := by
  unfold fixCustomersStep
  rw [propRead_not_nullish data "customers" (by cases data <;> simp_all [isObj, isNullish]),
    hc]
  simp only [bind, Option.some_bind]

theorem fixDepotStep_frame (data fd : JSVal) (hobj : isObj data = true) :
    ∀ fd', fixDepotStep data fd = some fd' →
      isObj fd' = isObj fd ∧ ∀ k, ¬k = "depot" → getField fd' k = getField fd k := by
  intro fd' h
  unfold fixDepotStep at h
  rw [propRead_not_nullish data "depot" (by cases data <;> simp_all [isObj, isNullish])] at h
  simp only [bind, Option.some_bind] at h
  by_cases ht : truthy (getField data "depot") = true
  · rw [if_pos ht] at h
    cases h
    exact ⟨isObj_setField fd "depot" _,
      fun k hk => getField_setField_ne fd "depot" k (fun he => hk he.symm) _⟩
  · rw [if_neg ht] at h
    cases h
    exact ⟨rfl, fun k hk => rfl⟩

theorem fixDepotStep_of_truthy (data fd : JSVal) (hobj : isObj data = true)
    (ht : truthy (getField data "depot") = true) :
    fixDepotStep data fd = some (setField fd "depot" (.obj [
      ("lat", .num (jsParseFloat (getField (getField data "depot") "lat"))),
      ("lon", .num (jsParseFloat (getField (getField data "depot") "lon"))),
      ("name", orDefault (getField (getField data "depot") "name") (.str "Depot"))])) := by
  unfold fixDepotStep
  rw [propRead_not_nullish data "depot" (by cases data <;> simp_all [isObj, isNullish])]
  simp only [bind, Option.some_bind]
  rw [if_pos ht]

theorem fixDepotStep_of_falsy (data fd : JSVal) (hobj : isObj data = true)
    (ht : truthy (getField data "depot") = false) :
    fixDepotStep data fd = some fd := by
  unfold fixDepotStep
  rw [propRead_not_nullish data "depot" (by cases data <;> simp_all [isObj, isNullish])]
  simp only [bind, Option.some_bind]
  rw [if_neg (by simp [ht])]

theorem getField_obj_spread (data : JSVal) (h : isObj data = true) (k : String) :
    getField (.obj (spreadFields data)) k = getField data k := by
  cases data <;> simp_all [isObj, spreadFields, getField]

theorem lookupField_cons_self (a : String) (v : JSVal) (tl : List (String × JSVal)) :
    lookupField ((a, v) :: tl) a = v := by
  show (if a = a then v else lookupField tl a) = v
  rw [if_pos rfl]

/-! ### Claim theorems -/

/-- C1 (code bug): the spec and the inventory panel expect
`optimizeInventory` to return `economic_order_quantity`, `reorder_point` and
`safety_stock` with missing response fields defaulted to numbers, but on the
empty backend response the client defaults `reorder_point` and
`safety_stock` (and an `optimal_order_quantity` field nothing consumes)
while `economic_order_quantity` is simply absent: the defensive-defaulting
block (api.js lines 169–177) names the wrong field, and
`InventoryOptimizer.jsx` dereferences `result.economic_order_quantity`
unconditionally. -/
theorem optimizeInventory_missing_eoq_default :
    optimizeInventory "http://localhost:8000"
        (.resp ⟨200, some "application/json", "\x7b\x7d"⟩) =
      .ok (optimizeInventoryNormalize (.obj [])) ∧
    hasField (optimizeInventoryNormalize (.obj [])) "economic_order_quantity" = false ∧
    getField (optimizeInventoryNormalize (.obj [])) "economic_order_quantity" = .undefined ∧
    getField (optimizeInventoryNormalize (.obj [])) "reorder_point" = .num (.fin 0) ∧
    getField (optimizeInventoryNormalize (.obj [])) "safety_stock" = .num (.fin 0) ∧
    getField (optimizeInventoryNormalize (.obj [])) "optimal_order_quantity" = .num (.fin 0) :=
  ⟨rfl, rfl, rfl, rfl, rfl, rfl⟩

/-- C2 (code bug): the spec table and the shipment panel consume
`will_delay`, `delay_probability` and `risk_level`, but on the empty backend
response the client's defaulting block (api.js lines 144–155) fills in
`delayed`, `probability_delayed` and `risk_level` instead: `will_delay` and
`delay_probability` are absent from the returned object. -/
theorem predictShipment_missing_delay_fields :
    predictShipment "http://localhost:8000" (.obj [])
        (.resp ⟨200, some "application/json", "\x7b\x7d"⟩) =
      .ok (predictShipmentNormalize (.obj []) (.obj [])) ∧
    hasField (predictShipmentNormalize (.obj []) (.obj [])) "will_delay" = false ∧
    hasField (predictShipmentNormalize (.obj []) (.obj [])) "delay_probability" = false ∧
    getField (predictShipmentNormalize (.obj []) (.obj [])) "risk_level" = .str "Unknown" ∧
    getField (predictShipmentNormalize (.obj []) (.obj [])) "delayed" = .null ∧
    getField (predictShipmentNormalize (.obj []) (.obj [])) "probability_delayed" =
      .num (.fin 0) :=
  ⟨rfl, rfl, rfl, rfl, rfl, rfl⟩

/-- C8: called with a non-array argument, `batchEvaluateSuppliers` throws
`Batch supplier evaluation failed: Suppliers must be an array` (its own
guard error wrapped by its catch) and never reaches the `request` call —
the first component of the model records that no HTTP request was issued;
the embedding is a pure function of its arguments, matching the source,
which only throws from the guard. -/
theorem batchEvaluateSuppliers_non_array_throws
    (baseURL : String) (suppliers : JSVal) (o : FetchOutcome)
    (h : isArr suppliers = false) :
    batchEvaluateSuppliers baseURL suppliers o =
      (false, .err "Batch supplier evaluation failed: Suppliers must be an array") := by
  cases suppliers <;> first | rfl | exact absurd h (by simp [isArr])

/-- Witness for C8 at a concrete non-array argument. -/
theorem batchEvaluateSuppliers_non_array_throws_witness :
    batchEvaluateSuppliers "http://localhost:8000" (.num (.fin 5)) (.reject "x") =
      (false, .err "Batch supplier evaluation failed: Suppliers must be an array") :=
  batchEvaluateSuppliers_non_array_throws "http://localhost:8000" (.num (.fin 5))
    (.reject "x") rfl

/-- C9: when fetch rejects with exactly `Failed to fetch`, `request`
rethrows the error with its message replaced by the cannot-connect text
naming the base URL (and no status or data attached). -/
theorem request_network_error_message (baseURL : String) :
    request baseURL (.reject "Failed to fetch") =
      .apiError ("Cannot connect to backend at " ++ baseURL ++ ". Is the server running?")
        none none := by
  show ReqResult.apiError (fixupMsg baseURL "Failed to fetch") none none = _
  rw [fixupMsg, if_pos rfl]

/-- C4: the body-parsing block never throws out of `request`: a response
whose content type is absent or does not include `application/json` has its
body text wrapped as `{message: text}`; a JSON-typed body that fails
`JSON.parse` yields `{message: 'Invalid response format'}`; a JSON-typed
empty body yields `{}`; and on an ok status `request` resolves with exactly
the parsed data. -/
theorem request_body_parsing_total (baseURL : String) (r : Resp) :
    (ctIsJson r.contentType = false →
      parseBody r.contentType r.body = .obj [("message", .str r.body)]) ∧
    (ctIsJson r.contentType = true → r.body ≠ "" → jsonParse r.body = none →
      parseBody r.contentType r.body = .obj [("message", .str "Invalid response format")]) ∧
    (ctIsJson r.contentType = true → r.body = "" →
      parseBody r.contentType r.body = .obj []) ∧
    (respOk r.status = true →
      request baseURL (.resp r) = .ok (parseBody r.contentType r.body)) := by
  refine ⟨?_, ?_, ?_, ?_⟩
  · intro h
    simp [parseBody, h]
  · intro h1 h2 h3
    simp [parseBody, h1, h2, h3]
  · intro h1 h2
    simp [parseBody, h1, h2]
  · intro h
    simp [request, h]

/-- Witness for C4 at concrete responses of each kind. -/
theorem request_body_parsing_total_witness :
    parseBody (some "text/html") "oops" = .obj [("message", .str "oops")] ∧
    parseBody (some "application/json") "not json" =
      .obj [("message", .str "Invalid response format")] ∧
    parseBody (some "application/json") "" = .obj [] ∧
    request "http://localhost:8000" (.resp ⟨200, some "application/json", "\x7b\x7d"⟩) =
      .ok (.obj []) := by
  refine ⟨?_, ?_, ?_, ?_⟩
  · exact (request_body_parsing_total "http://localhost:8000"
      ⟨200, some "text/html", "oops"⟩).1 rfl
  · exact (request_body_parsing_total "http://localhost:8000"
      ⟨404, some "application/json", "not json"⟩).2.1 rfl (by simp) rfl
  · exact (request_body_parsing_total "http://localhost:8000"
      ⟨200, some "application/json", ""⟩).2.2.1 rfl rfl
  · exact ((request_body_parsing_total "http://localhost:8000"
      ⟨200, some "application/json", "\x7b\x7d"⟩).2.2.2 rfl).trans rfl


/-- C3 (corrected, counterexample): the claim says the `results` field of
`batchEvaluateSuppliers`'s return value is always an array and
`total`/`successful`/`failed` are always numbers, but the trailing
`...result` spread (api.js line 294) overrides the defensive defaults with
the raw response fields: a backend response `{"results": 5}` comes back
with `results` equal to the number 5, not an array. -/
theorem batchEvaluateSuppliers_results_passthrough_cex :
    batchEvaluateSuppliers "http://localhost:8000" (.arr [])
        (.resp ⟨200, some "application/json", "\x7b\"results\": 5\x7d"⟩) =
      (true, .ok (batchNormalize 0 (.obj [("results", .num (.fin 5))]))) ∧
    getField (batchNormalize 0 (.obj [("results", .num (.fin 5))])) "results" =
      .num (.fin 5) ∧
    isArr (getField (batchNormalize 0 (.obj [("results", .num (.fin 5))])) "results") =
      false :=
  ⟨rfl, rfl, rfl⟩

/-- C3 (amended): for every backend response object, a field of
`results`/`total`/`successful`/`failed` that is present in the response is
passed through unchanged (so the claimed types hold exactly when the
backend supplies them), and a missing field is defaulted: `results` to the
empty array, `total` to the length of the submitted supplier array,
`successful` and `failed` to 0. -/
theorem batchEvaluateSuppliers_presence_defaults
    (baseURL : String) (xs : List JSVal) (o : FetchOutcome)
    (fs : List (String × JSVal))
    (hreq : request baseURL o = .ok (.obj fs)) :
    batchEvaluateSuppliers baseURL (.arr xs) o =
      (true, .ok (batchNormalize xs.length (.obj fs))) ∧
    (∀ k, hasField (.obj fs) k = true →
      getField (batchNormalize xs.length (.obj fs)) k = getField (.obj fs) k) ∧
    (hasField (.obj fs) "results" = false →
      getField (batchNormalize xs.length (.obj fs)) "results" = .arr []) ∧
    (hasField (.obj fs) "total" = false →
      getField (batchNormalize xs.length (.obj fs)) "total" = .num (.fin xs.length)) ∧
    (hasField (.obj fs) "successful" = false →
      getField (batchNormalize xs.length (.obj fs)) "successful" = .num (.fin 0)) ∧
    (hasField (.obj fs) "failed" = false →
      getField (batchNormalize xs.length (.obj fs)) "failed" = .num (.fin 0)) := by
  refine ⟨by simp [batchEvaluateSuppliers, hreq], ?_, ?_, ?_, ?_, ?_⟩
  · intro k hk
    have h' : fs.any (fun kv => kv.1 = k) = true := hk
    show lookupField (fs ++ _) k = lookupField fs k
    rw [lookupField_append, if_pos h']
  · intro hk
    have h' : fs.any (fun kv => kv.1 = "results") = false := hk
    have habs : lookupField fs "results" = .undefined := lookupField_of_not_any fs "results" h'
    show lookupField (fs ++ _) "results" = _
    rw [lookupField_append, if_neg (by simp [h']), lookupField_cons_self]
    show (if isArr (lookupField fs "results") = true then _ else _) = _
    rw [habs]
    rfl
  · intro hk
    have h' : fs.any (fun kv => kv.1 = "total") = false := hk
    have habs : lookupField fs "total" = .undefined := lookupField_of_not_any fs "total" h'
    show lookupField (fs ++ _) "total" = _
    rw [lookupField_append, if_neg (by simp [h'])]
    show nullishDefault (lookupField fs "total") _ = _
    rw [habs]
    rfl
  · intro hk
    have h' : fs.any (fun kv => kv.1 = "successful") = false := hk
    have habs : lookupField fs "successful" = .undefined :=
      lookupField_of_not_any fs "successful" h'
    show lookupField (fs ++ _) "successful" = _
    rw [lookupField_append, if_neg (by simp [h'])]
    show nullishDefault (lookupField fs "successful") _ = _
    rw [habs]
    rfl
  · intro hk
    have h' : fs.any (fun kv => kv.1 = "failed") = false := hk
    have habs : lookupField fs "failed" = .undefined := lookupField_of_not_any fs "failed" h'
    show lookupField (fs ++ _) "failed" = _
    rw [lookupField_append, if_neg (by simp [h'])]
    show nullishDefault (lookupField fs "failed") _ = _
    rw [habs]
    rfl

/-- Witness for C3's amended theorem at a concrete response carrying only a
`successful` field. -/
theorem batchEvaluateSuppliers_presence_defaults_witness :
    batchEvaluateSuppliers "http://localhost:8000" (.arr [.obj []])
        (.resp ⟨200, some "application/json", "\x7b\"successful\": 3\x7d"⟩) =
      (true, .ok (batchNormalize 1 (.obj [("successful", .num (.fin 3))]))) ∧
    getField (batchNormalize 1 (.obj [("successful", .num (.fin 3))])) "successful" =
      .num (.fin 3) ∧
    getField (batchNormalize 1 (.obj [("successful", .num (.fin 3))])) "total" =
      .num (.fin 1) ∧
    getField (batchNormalize 1 (.obj [("successful", .num (.fin 3))])) "results" =
      .arr [] := by
  have H := batchEvaluateSuppliers_presence_defaults "http://localhost:8000" [.obj []]
    (.resp ⟨200, some "application/json", "\x7b\"successful\": 3\x7d"⟩)
    [("successful", .num (.fin 3))] rfl
  exact ⟨H.1, (H.2.1 "successful" rfl).trans rfl, H.2.2.2.1 rfl, H.2.2.1 rfl⟩


theorem optimizeRoutingNormalize_routes_eq (data : JSVal) (fs : List (String × JSVal)) :
    ∀ v, optimizeRoutingNormalize data (.obj fs) = some v →
      getField v "routes" =
        (if isArr (lookupField fs "routes") = true then lookupField fs "routes"
         else .arr []) := by
  intro v hv
  unfold optimizeRoutingNormalize at hv
  rw [propRead_obj fs "routes"] at hv
  simp only [bind, Option.some_bind, Option.bind_eq_some] at hv
  obtain ⟨vrs, hvrs, hv2⟩ := hv
  cases hv2
  by_cases hA : isArr (lookupField fs "routes") = true
  · rw [if_pos hA]
    have hne : lookupField fs "routes" ≠ .undefined := by
      intro hh
      rw [hh] at hA
      exact absurd hA (by simp [isArr])
    have hany := any_of_lookupField_ne fs "routes" hne
    show lookupField (fs ++ _) "routes" = _
    rw [lookupField_append, if_pos hany, if_pos hA]
  · rw [if_neg hA]
    rw [if_neg hA]
    show lookupField ((("routes", JSVal.arr []) :: _) ++ _) "routes" = .arr []
    rw [List.cons_append, lookupField_cons_self]

/-- C6 (corrected, counterexample): the claim also promises every returned
route has `vehicle_id`, `locations`, `total_distance` and `total_demand`
defined, but the final `...result` spread (api.js line 264) overrides the
`routes: validatedRoutes` entry with the raw `result.routes`, so the
per-route validation is discarded: a backend response `{"routes":[{}]}`
comes back with the bare empty route, which has no `vehicle_id`. -/
theorem optimizeRouting_route_validation_bypassed_cex :
    optimizeRouting "http://localhost:8000" (.obj [])
        (.resp ⟨200, some "application/json", "\x7b\"routes\":[\x7b\x7d]\x7d"⟩) =
      .ok ((optimizeRoutingNormalize (.obj [])
        (.obj [("routes", .arr [.obj []])])).getD .undefined) ∧
    getField ((optimizeRoutingNormalize (.obj [])
        (.obj [("routes", .arr [.obj []])])).getD .undefined) "routes" = .arr [.obj []] ∧
    hasField (.obj []) "vehicle_id" = false ∧
    getField (.obj []) "vehicle_id" = .undefined :=
  ⟨rfl, rfl, rfl, rfl⟩

/-- C6 (amended): for every backend response object, on every call that
resolves, the `routes` field of `optimizeRouting`'s resolved value is
always an array — the response's own `routes` array passed through
unchanged when it is one, the empty array when `routes` is missing or not
an array — but the routes are NOT individually validated: the raw array is
returned as-is, and a nullish route (or nullish location entry) makes the
per-route validation throw a TypeError, so the call throws instead of
resolving. -/
theorem optimizeRouting_routes_array_amended
    (baseURL : String) (data : JSVal) (o : FetchOutcome) (fs : List (String × JSVal))
    (fd : JSVal) (hfix : optimizeRoutingFixedData data = some fd)
    (hreq : request baseURL o = .ok (.obj fs)) :
    (∀ v, optimizeRoutingNormalize data (.obj fs) = some v →
      optimizeRouting baseURL data o = .ok v ∧
      isArr (getField v "routes") = true ∧
      (∀ rs, getField (.obj fs) "routes" = .arr rs → getField v "routes" = .arr rs) ∧
      (isArr (getField (.obj fs) "routes") = false → getField v "routes" = .arr [])) ∧
    (optimizeRoutingNormalize data (.obj fs) = none →
      optimizeRouting baseURL data o = .errEngine) := by
  constructor
  · intro v hv
    have hroutes := optimizeRoutingNormalize_routes_eq data fs v hv
    refine ⟨by simp [optimizeRouting, hfix, hreq, hv], ?_, ?_, ?_⟩
    · rw [hroutes]
      by_cases hA : isArr (lookupField fs "routes") = true
      · rw [if_pos hA]
        exact hA
      · rw [if_neg hA]
        rfl
    · intro rs h
      have hA : isArr (lookupField fs "routes") = true := by
        have hl : lookupField fs "routes" = .arr rs := h
        rw [hl]
        rfl
      rw [hroutes, if_pos hA]
      exact h
    · intro h
      have hA : ¬ isArr (lookupField fs "routes") = true := by
        intro hx
        have hx' : isArr (getField (.obj fs) "routes") = true := hx
        rw [h] at hx'
        cases hx'
      rw [hroutes, if_neg hA]
  · intro hn
    simp [optimizeRouting, hfix, hreq, hn]

/-- Witness for C6's amended theorem: a response whose `routes` holds one
bare object is passed through, a response without `routes` yields the
empty array, and a response whose `routes` holds `null` makes the call
throw. -/
theorem optimizeRouting_routes_array_amended_witness :
    optimizeRouting "http://localhost:8000" (.obj [])
        (.resp ⟨200, some "application/json", "\x7b\"routes\":[null]\x7d"⟩) =
      .errEngine ∧
    getField ((optimizeRoutingNormalize (.obj [])
        (.obj [("routes", .arr [.obj [("a", .num (.fin 1))]])])).getD .undefined)
      "routes" = .arr [.obj [("a", .num (.fin 1))]] ∧
    getField ((optimizeRoutingNormalize (.obj []) (.obj [])).getD .undefined) "routes" =
      .arr [] := by
  have H1 := optimizeRouting_routes_array_amended "http://localhost:8000" (.obj [])
    (.resp ⟨200, some "application/json", "\x7b\"routes\":[null]\x7d"⟩)
    [("routes", .arr [.null])] (.obj []) rfl rfl
  have H2 := optimizeRouting_routes_array_amended "http://localhost:8000" (.obj [])
    (.resp ⟨200, some "application/json", "\x7b\"routes\":[\x7b\"a\":1\x7d]\x7d"⟩)
    [("routes", .arr [.obj [("a", .num (.fin 1))]])] (.obj []) rfl rfl
  have H3 := optimizeRouting_routes_array_amended "http://localhost:8000" (.obj [])
    (.resp ⟨200, some "application/json", "\x7b\x7d"⟩) [] (.obj []) rfl rfl
  refine ⟨H1.2 rfl, ?_, ?_⟩
  · exact ((H2.1 ((optimizeRoutingNormalize (.obj [])
      (.obj [("routes", .arr [.obj [("a", .num (.fin 1))]])])).getD .undefined)
      rfl).2.2.1 [.obj [("a", .num (.fin 1))]] rfl)
  · exact ((H3.1 ((optimizeRoutingNormalize (.obj []) (.obj [])).getD .undefined)
      rfl).2.2.2 rfl)


/-- C7 (corrected, counterexample): the claim says `depot`, when present in
the input, is sent as an object with numeric coordinates, but the source
guards the depot fixup with the truthiness test `if (data.depot)` (api.js
line 209): a present-but-falsy depot such as `null` is passed through to
the request body unchanged, not as an object. -/
theorem optimizeRouting_falsy_depot_cex :
    hasField (.obj [("customers", .arr []), ("depot", .null)]) "depot" = true ∧
    optimizeRoutingFixedData (.obj [("customers", .arr []), ("depot", .null)]) =
      some (.obj [("customers", .arr []), ("depot", .null)]) ∧
    getField ((optimizeRoutingFixedData
        (.obj [("customers", .arr []), ("depot", .null)])).getD .undefined) "depot" =
      .null ∧
    isObj (getField ((optimizeRoutingFixedData
        (.obj [("customers", .arr []), ("depot", .null)])).getD .undefined) "depot") =
      false :=
  ⟨rfl, rfl, rfl, rfl⟩

/-- C7 (amended): for every input object whose `customers` field is an
array of non-nullish entries, the request body's `customers` are the
reformatted entries — each an object with number-typed `lat` and `lon`
(`parseFloat` results, possibly NaN), a number `demand` that is 0 when the
input entry has none, and a `name` defaulting to `Customer <index+1>` when
the input name is falsy — and the body's `depot`, when the input depot is
truthy, is an object with number-typed `lat` and `lon` and a `name`
defaulting to `Depot`, while a falsy input depot is passed through
unchanged; a nullish customer entry instead makes the `customer.lat` read
throw a TypeError, so no body is built at all. -/
theorem optimizeRouting_request_body_amended
    (data : JSVal) (hobj : isObj data = true) (cs : List JSVal)
    (hcust : getField data "customers" = .arr cs) :
    (∀ fixed body, cs.enum.mapM (fun p => fixCustomer p.1 p.2) = some fixed →
      optimizeRoutingFixedData data = some body →
      getField body "customers" = .arr fixed) ∧
    (∀ idx c cf, fixCustomer idx c = some cf →
      isObj cf = true ∧
      isNum (getField cf "lat") = true ∧
      isNum (getField cf "lon") = true ∧
      isNum (getField cf "demand") = true ∧
      (getField c "demand" = .undefined → getField cf "demand" = .num (.fin 0)) ∧
      (truthy (getField c "name") = false →
        getField cf "name" = .str ("Customer " ++ Nat.repr (idx + 1)))) ∧
    (cs.enum.mapM (fun p => fixCustomer p.1 p.2) = none →
      optimizeRoutingFixedData data = none) ∧
    (∀ body, optimizeRoutingFixedData data = some body →
      truthy (getField data "depot") = true →
      isObj (getField body "depot") = true ∧
      isNum (getField (getField body "depot") "lat") = true ∧
      isNum (getField (getField body "depot") "lon") = true ∧
      (truthy (getField (getField data "depot") "name") = false →
        getField (getField body "depot") "name" = .str "Depot")) ∧
    (∀ body, optimizeRoutingFixedData data = some body →
      truthy (getField data "depot") = false →
      getField body "depot" = getField data "depot") := by
  have hdestruct : ∀ body, optimizeRoutingFixedData data = some body →
      ∃ fd1 fd2, fixLocationsStep data (.obj (spreadFields data)) = some fd1 ∧
        fixCustomersStep data fd1 = some fd2 ∧ fixDepotStep data fd2 = some body := by
    intro body h
    unfold optimizeRoutingFixedData at h
    simp only [bind, Option.bind_eq_some] at h
    obtain ⟨fd1, h1, h2⟩ := h
    obtain ⟨fd2, h3, h4⟩ := h2
    exact ⟨fd1, fd2, h1, h3, h4⟩
  refine ⟨?_, ?_, ?_, ?_, ?_⟩
  · intro fixed body hmap hbody
    obtain ⟨fd1, fd2, h1, h2, h3⟩ := hdestruct body hbody
    have hobj1 : isObj fd1 = true := by
      rw [(fixLocationsStep_frame data _ hobj fd1 h1).1]
      rfl
    rw [fixCustomersStep_of_arr data fd1 hobj cs hcust, hmap] at h2
    simp only [Option.some_bind] at h2
    cases h2
    have hfr3 := fixDepotStep_frame data _ hobj body h3
    rw [hfr3.2 "customers" (by decide)]
    exact getField_setField_self fd1 hobj1 "customers" (.arr fixed)
  · intro idx c cf hcf
    have hnn : isNullish c = false := by
      cases c <;> first | rfl | simp [fixCustomer, propRead] at hcf
    rw [show fixCustomer idx c = some (.obj [
        ("lat", .num (jsParseFloat (getField c "lat"))),
        ("lon", .num (jsParseFloat (getField c "lon"))),
        ("demand", .num (jsParseFloat (orDefault (getField c "demand") (.num (.fin 0))))),
        ("name", orDefault (getField c "name")
          (.str ("Customer " ++ Nat.repr (idx + 1))))])
      from by
        unfold fixCustomer
        rw [propRead_not_nullish c "lat" hnn, propRead_not_nullish c "lon" hnn,
            propRead_not_nullish c "demand" hnn, propRead_not_nullish c "name" hnn]
        simp only [bind, Option.some_bind]] at hcf
    cases hcf
    refine ⟨rfl, rfl, rfl, rfl, ?_, ?_⟩
    · intro h
      show JSVal.num (jsParseFloat (orDefault (getField c "demand") (.num (.fin 0)))) = _
      rw [h]
      rfl
    · intro h
      show orDefault (getField c "name") (.str ("Customer " ++ Nat.repr (idx + 1))) = _
      simp [orDefault, h]
  · intro hmap
    obtain ⟨fd1, h1⟩ := fixLocationsStep_isSome data (.obj (spreadFields data)) hobj
    unfold optimizeRoutingFixedData
    simp only [bind]
    rw [h1]
    simp only [Option.some_bind]
    rw [fixCustomersStep_of_arr data fd1 hobj cs hcust, hmap]
    rfl
  · intro body hbody htr
    obtain ⟨fd1, fd2, h1, h2, h3⟩ := hdestruct body hbody
    have hobj1 : isObj fd1 = true := by
      rw [(fixLocationsStep_frame data _ hobj fd1 h1).1]
      rfl
    have hobj2 : isObj fd2 = true := by
      rw [(fixCustomersStep_frame data fd1 hobj fd2 h2).1]
      exact hobj1
    rw [fixDepotStep_of_truthy data fd2 hobj htr] at h3
    cases h3
    rw [getField_setField_self fd2 hobj2]
    refine ⟨rfl, rfl, rfl, ?_⟩
    intro h
    show orDefault (getField (getField data "depot") "name") (.str "Depot") = _
    simp [orDefault, h]
  · intro body hbody htr
    obtain ⟨fd1, fd2, h1, h2, h3⟩ := hdestruct body hbody
    rw [fixDepotStep_of_falsy data fd2 hobj htr] at h3
    injection h3 with hbeq
    rw [← hbeq]
    rw [(fixCustomersStep_frame data fd1 hobj fd2 h2).2 "depot" (by decide),
        (fixLocationsStep_frame data _ hobj fd1 h1).2 "depot" (by decide),
        getField_obj_spread data hobj]

/-- Witness for C7's amended theorem: a concrete input with one customer
(string latitude, no demand, no name) and an object depot without a name,
plus a nullish customer entry on which no body is built. -/
theorem optimizeRouting_request_body_amended_witness :
    getField ((optimizeRoutingFixedData (.obj [
        ("customers", .arr [.obj [("lat", .str "3"), ("lon", .num (.fin 4))]]),
        ("depot", .obj [("lat", .num (.fin 1)),
          ("lon", .num (.fin 2))])])).getD .undefined) "customers" =
      .arr [.obj [("lat", .num (.fin 3)), ("lon", .num (.fin 4)),
        ("demand", .num (.fin 0)), ("name", .str "Customer 1")]] ∧
    getField (getField ((optimizeRoutingFixedData (.obj [
        ("customers", .arr [.obj [("lat", .str "3"), ("lon", .num (.fin 4))]]),
        ("depot", .obj [("lat", .num (.fin 1)),
          ("lon", .num (.fin 2))])])).getD .undefined) "depot") "name" = .str "Depot" ∧
    optimizeRoutingFixedData (.obj [("customers", .arr [.null])]) = none := by
  have H := optimizeRouting_request_body_amended (.obj [
      ("customers", .arr [.obj [("lat", .str "3"), ("lon", .num (.fin 4))]]),
      ("depot", .obj [("lat", .num (.fin 1)), ("lon", .num (.fin 2))])]) rfl
    [.obj [("lat", .str "3"), ("lon", .num (.fin 4))]] rfl
  have Hnull := optimizeRouting_request_body_amended
    (.obj [("customers", .arr [.null])]) rfl [.null] rfl
  refine ⟨?_, ?_, Hnull.2.2.1 rfl⟩
  · exact (H.1 _ _ rfl rfl).trans rfl
  · exact (H.2.2.2.1 _ rfl rfl).2.2.2 rfl

/-- C10: on every execution that builds a request body, `optimizeRouting`
passes every input field other than `locations`, `customers` and `depot` —
the `algorithm` field in particular — through to the body unchanged.  The
input object itself is never written to: the source copies it with
`{...data}` and assigns only to the copy (and to the response object),
which the embedding reflects by being a pure function of `data`. -/
theorem optimizeRouting_frame_passthrough (data : JSVal) (hobj : isObj data = true) :
    (∀ body, optimizeRoutingFixedData data = some body →
      ∀ k, ¬k = "locations" → ¬k = "customers" → ¬k = "depot" →
        getField body k = getField data k) ∧
    (∀ body, optimizeRoutingFixedData data = some body →
      getField body "algorithm" = getField data "algorithm") := by
  have main : ∀ body, optimizeRoutingFixedData data = some body →
      ∀ k, ¬k = "locations" → ¬k = "customers" → ¬k = "depot" →
        getField body k = getField data k := by
    intro body hbody k h1 h2 h3
    unfold optimizeRoutingFixedData at hbody
    simp only [bind, Option.bind_eq_some] at hbody
    obtain ⟨fd1, hfd1, fd2, hfd2, hfd3⟩ := hbody
    rw [(fixDepotStep_frame data fd2 hobj body hfd3).2 k h3,
        (fixCustomersStep_frame data fd1 hobj fd2 hfd2).2 k h2,
        (fixLocationsStep_frame data _ hobj fd1 hfd1).2 k h1,
        getField_obj_spread data hobj]
  exact ⟨main, fun body hbody =>
    main body hbody "algorithm" (by decide) (by decide) (by decide)⟩

/-- Witness for C10 at a concrete input carrying an `algorithm` field. -/
theorem optimizeRouting_frame_passthrough_witness :
    getField ((optimizeRoutingFixedData
        (.obj [("algorithm", .str "nearest_neighbor"),
          ("customers", .arr [])])).getD .undefined)
      "algorithm" = .str "nearest_neighbor" := by
  have H := (optimizeRouting_frame_passthrough
      (.obj [("algorithm", .str "nearest_neighbor"), ("customers", .arr [])]) rfl).2
    ((optimizeRoutingFixedData
        (.obj [("algorithm", .str "nearest_neighbor"),
          ("customers", .arr [])])).getD .undefined) rfl
  exact H.trans rfl


theorem computeErrorMsg_nullish (status : Nat) (data : JSVal)
    (h : isNullish data = true) : computeErrorMsg status data = none := by
  cases data <;> simp_all [isNullish, computeErrorMsg, propRead, bind]

theorem computeErrorMsg_base_case (status : Nat) (data : JSVal)
    (hnn : isNullish data = false)
    (h : ¬(status = 422 ∧ isArr (getField data "detail") = true ∧
      truthy (getField data "detail") = true)) :
    computeErrorMsg status data =
      some (jsToString (orDefault (getField data "detail")
        (orDefault (getField data "message")
          (.str ("HTTP " ++ Nat.repr status ++ ": Request failed"))))) := by
  unfold computeErrorMsg
  rw [propRead_not_nullish data "detail" hnn, propRead_not_nullish data "message" hnn]
  simp only [bind, Option.some_bind]
  by_cases hc : status = 422 ∧ truthy (getField data "detail") = true
  · rw [if_pos hc]
    have hna : isArr (getField data "detail") = false := by
      by_cases hx : isArr (getField data "detail") = true
      · exact absurd ⟨hc.1, hx, hc.2⟩ h
      · exact Bool.not_eq_true _ ▸ hx
    cases hd : getField data "detail" with
    | arr xs =>
      rw [hd] at hna
      exact absurd hna (by simp [isArr])
    | undefined => rfl
    | null => rfl
    | bool b => rfl
    | num n => rfl
    | str s => rfl
    | obj ms => rfl
  · rw [if_neg hc]

/-- C5 (corrected, counterexample): the claim chooses the error message as
"the detail field if present, else the message field", but the source uses
JS truthiness (`data.detail || data.message || ...`, api.js line 48): on a
500 response whose body is `{"detail":"","message":"m"}`, `detail` is
present yet the thrown message is `m`, not the empty `detail` string. -/
theorem request_detail_present_not_used_cex :
    request "http://localhost:8000" (.resp ⟨500, some "application/json",
        "\x7b\"detail\":\"\",\"message\":\"m\"\x7d"⟩) =
      .apiError "m" (some 500)
        (some (.obj [("detail", .str ""), ("message", .str "m")])) ∧
    hasField (.obj [("detail", .str ""), ("message", .str "m")]) "detail" = true ∧
    jsToString (getField (.obj [("detail", .str ""), ("message", .str "m")]) "detail") =
      "" ∧
    ("m" : String) ≠ "" :=
  ⟨rfl, rfl, rfl, by simp⟩

/-- C5 (amended): for every non-ok response whose parsed body is not
nullish, `request` throws an Error whose message is the body's `detail`
field if truthy, else its `message` field if truthy, else
`HTTP <status>: Request failed`, coerced to a string by JS string
conversion — except that, when the status is 422 and `detail` is a truthy
array whose entries are each non-nullish with a nullish-or-array `loc`,
the message is instead the entries `<loc joined by '.', or 'field' when
that join is empty or loc is nullish>: <msg>` joined by `, ` — and a
resulting message equal to `Failed to fetch` is further replaced by the
cannot-connect message in the outer catch.  A nullish parsed body (the
JSON body `null`) instead makes the `data.detail` read itself throw a
TypeError, which propagates with its engine-defined message. -/
theorem request_error_message_amended (baseURL : String) (r : Resp)
    (hnotok : respOk r.status = false) :
    (isNullish (parseBody r.contentType r.body) = false →
      ¬(r.status = 422 ∧ isArr (getField (parseBody r.contentType r.body) "detail") = true
        ∧ truthy (getField (parseBody r.contentType r.body) "detail") = true) →
      request baseURL (.resp r) =
        .apiError
          (fixupMsg baseURL (jsToString
            (orDefault (getField (parseBody r.contentType r.body) "detail")
              (orDefault (getField (parseBody r.contentType r.body) "message")
                (.str ("HTTP " ++ Nat.repr r.status ++ ": Request failed"))))))
          (some r.status) (some (parseBody r.contentType r.body))) ∧
    (∀ entries msgs, r.status = 422 →
      getField (parseBody r.contentType r.body) "detail" = .arr entries →
      entries.mapM fmtEntry = some msgs →
      request baseURL (.resp r) =
        .apiError (fixupMsg baseURL (String.intercalate ", " msgs)) (some r.status)
          (some (parseBody r.contentType r.body))) ∧
    (isNullish (parseBody r.contentType r.body) = true →
      request baseURL (.resp r) = .jsEngineError) := by
  refine ⟨?_, ?_, ?_⟩
  · intro hnn h
    show (if respOk r.status = true then ReqResult.ok _ else _) = _
    rw [if_neg (by simp [hnotok]), computeErrorMsg_base_case r.status _ hnn h]
  · intro entries msgs h422 hdet hmap
    have hnn : isNullish (parseBody r.contentType r.body) = false := by
      cases hb : parseBody r.contentType r.body <;> rw [hb] at hdet <;>
        simp_all [getField, isNullish]
    show (if respOk r.status = true then ReqResult.ok _ else _) = _
    rw [if_neg (by simp [hnotok])]
    have hm : computeErrorMsg r.status (parseBody r.contentType r.body) =
        some (String.intercalate ", " msgs) := by
      unfold computeErrorMsg
      rw [propRead_not_nullish _ "detail" hnn, propRead_not_nullish _ "message" hnn]
      simp only [bind, Option.some_bind]
      rw [if_pos ⟨h422, by rw [hdet]; rfl⟩, hdet]
      show (entries.mapM fmtEntry).map _ = _
      rw [hmap]
      rfl
    rw [hm]
  · intro hnn
    show (if respOk r.status = true then ReqResult.ok _ else _) = _
    rw [if_neg (by simp [hnotok]), computeErrorMsg_nullish r.status _ hnn]

/-- Witness for C5's amended theorem: a 500 response takes the
truthiness-selected `message` branch, a 422 response with an array
`detail` (one entry with a `loc` path, one without) takes the joined
validation-entry branch, and a 500 response whose body is the JSON `null`
propagates the TypeError from the `data.detail` read. -/
theorem request_error_message_amended_witness :
    request "http://localhost:8000" (.resp ⟨500, some "application/json",
        "\x7b\"message\":\"oops\"\x7d"⟩) =
      .apiError "oops" (some 500) (some (.obj [("message", .str "oops")])) ∧
    request "http://localhost:8000" (.resp ⟨422, some "application/json",
        "\x7b\"detail\":[\x7b\"loc\":[\"body\",\"x\"],\"msg\":\"bad\"\x7d,\x7b\"msg\":\"oops\"\x7d]\x7d"⟩) =
      .apiError "body.x: bad, field: oops" (some 422)
        (some (.obj [("detail", .arr [
          .obj [("loc", .arr [.str "body", .str "x"]), ("msg", .str "bad")],
          .obj [("msg", .str "oops")]])])) ∧
    request "http://localhost:8000" (.resp ⟨500, some "application/json", "null"⟩) =
      .jsEngineError := by
  refine ⟨?_, ?_, ?_⟩
  · have H := (request_error_message_amended "http://localhost:8000"
      ⟨500, some "application/json", "\x7b\"message\":\"oops\"\x7d"⟩ rfl).1 rfl
      (by intro hx; exact absurd hx.1 (by simp))
    exact H.trans rfl
  · have H := (request_error_message_amended "http://localhost:8000"
      ⟨422, some "application/json",
        "\x7b\"detail\":[\x7b\"loc\":[\"body\",\"x\"],\"msg\":\"bad\"\x7d,\x7b\"msg\":\"oops\"\x7d]\x7d"⟩ rfl).2.1
      [.obj [("loc", .arr [.str "body", .str "x"]), ("msg", .str "bad")],
       .obj [("msg", .str "oops")]]
      ["body.x: bad", "field: oops"] rfl rfl rfl
    exact H.trans rfl
  · exact (request_error_message_amended "http://localhost:8000"
      ⟨500, some "application/json", "null"⟩ rfl).2.2 rfl

end Supply
